import Mathlib

/-!
Shallow embedding of the PTC call-attribution and billing-reconciliation
engine from scripts ptc_common.py, ptc_verify.py and ptc_debug_billing.py.

Modelling conventions:
- timestamps are integers (created_at, updated_at);
- decimal credit amounts are integers (the engine only compares them with 0,
  adds and subtracts, so an ordered ring carrier is faithful);
- nullable SQL columns are Option values;
- Python truthiness on strings (None and empty string are falsy) is made
  explicit in dedicated helpers;
- the defaultdict keyed by parent id is an association list with an
  insert-or-append operation that preserves first-insertion key order.
-/

namespace PtcEngine

/-- One raw row fetched by fetch_billing_tool_calls: tool_call_results joined
with credit_usages, ordered by created_at ascending. -/
structure RawRow where
  call_id : String
  tool_name : String
  type : Option String
  status : String
  created_at : Int
  updated_at : Option Int
  ptc_call_id : Option String
  toolset_id : Option String
  credits_charged : Option Int
  original_price : Option Int
  billing_toolset_key : Option String
deriving DecidableEq

/-- The row dict built inside organize_billing_calls. -/
structure BillingRow where
  call_id : String
  tool_name : String
  type : String
  status : String
  created_at : Int
  updated_at : Option Int
  ptc_call_id : Option String
  toolset_id : Option String
  credits_charged : Int
  original_price : Int
  billing_toolset_key : Option String
  duration : Option Int
  is_non_billable : Bool
deriving DecidableEq

/-- One unbilled-success warning dict appended by organize_billing_calls. -/
structure Warning where
  type : String
  tool_name : String
  toolset : Option String
  call_id : String
  created_at : Int
deriving DecidableEq

/-- Built-in tools that are intentionally free (NON_BILLABLE_TOOL_NAMES). -/
def NON_BILLABLE_TOOL_NAMES : List String :=
  ["get_time", "read_file", "list_files", "read_agent_result",
   "read_tool_result", "generate_doc", "generate_code_artifact", "execute_code"]

/-- Byte-for-byte model of Python str.startswith over char lists. -/
def charListIsPre : List Char → List Char → Bool
  | [], _ => true
  | _ :: _, [] => false
  | a :: as, b :: bs => a == b && charListIsPre as bs

/-- Python s.startswith(p). -/
def pyStartsWith (s p : String) : Bool := charListIsPre p.data s.data

/-- Python truthiness of an optional string: None and the empty string are falsy. -/
def pyStrTruthy : Option String → Bool
  | none => false
  | some s => s ≠ ""

/-- Python a or b for optional strings (truthiness based). -/
def pyOrStr (a b : Option String) : Option String :=
  if pyStrTruthy a then a else b

/-- Python x or 0 for an optional numeric value. -/
def pyOrZero (x : Option Int) : Int := x.getD 0

/-- Classification from organize_billing_calls line 361:
is_ptc is tc_type equal to ptc when tc_type is truthy, otherwise the
call_id carries the reserved ptc: prefix. -/
def isPtcRow (r : RawRow) : Bool :=
  match r.type with
  | some t => if t == "" then pyStartsWith r.call_id "ptc:" else t == "ptc"
  | none => pyStartsWith r.call_id "ptc:"

/-- Grouping key used at line 396: ptc_call_id when truthy, else the
internal sentinel key. -/
def keyFor (r : RawRow) : String :=
  match r.ptc_call_id with
  | some s => if s == "" then "__unlinked__" else s
  | none => "__unlinked__"

/-- The row dict constructed in the organize_billing_calls loop. -/
def mkRow (r : RawRow) : BillingRow :=
  { call_id := r.call_id
    tool_name := r.tool_name
    type := if isPtcRow r then "ptc" else "agent"
    status := r.status
    created_at := r.created_at
    updated_at := r.updated_at
    ptc_call_id := r.ptc_call_id
    toolset_id := r.toolset_id
    credits_charged := pyOrZero r.credits_charged
    original_price := pyOrZero r.original_price
    billing_toolset_key := r.billing_toolset_key
    duration := r.updated_at.map (fun u => u - r.created_at)
    is_non_billable := NON_BILLABLE_TOOL_NAMES.contains r.tool_name }

/-- Condition of the unbilled-success warning at line 385. -/
def unbilledCond (r : RawRow) : Bool :=
  r.status == "completed" && pyOrZero r.credits_charged == 0 &&
    !(NON_BILLABLE_TOOL_NAMES.contains r.tool_name)

/-- The warning dict appended at line 386. -/
def mkWarning (r : RawRow) : Warning :=
  { type := "unbilled_success"
    tool_name := r.tool_name
    toolset := pyOrStr r.billing_toolset_key r.toolset_id
    call_id := r.call_id
    created_at := r.created_at }

/-- Association-list model of the defaultdict ptc_by_parent. -/
abbrev Group := List (String × List BillingRow)

/-- Lookup with default empty list (defaultdict read / dict.get default). -/
def glookup (m : Group) (k : String) : List BillingRow :=
  match m with
  | [] => []
  | (k1, v) :: rest => if k1 == k then v else glookup rest k

/-- Insert-or-append: defaultdict key access followed by list append. -/
def gadd (m : Group) (k : String) (r : BillingRow) : Group :=
  match m with
  | [] => [(k, [r])]
  | (k1, v) :: rest =>
    if k1 == k then (k1, v ++ [r]) :: rest else (k1, v) :: gadd rest k r

/-- Key removal, modelling dict.pop. -/
def gremove (m : Group) (k : String) : Group :=
  m.filter (fun kv => kv.1 ≠ k)

/-- Scan of assign_unlinked_ptc lines 290-294: walk agent calls in order,
remember the last one created no later than t, stop at the first later one. -/
def scanParent (acs : List BillingRow) (t : Int) : Option BillingRow :=
  match acs with
  | [] => none
  | ac :: rest =>
    if ac.created_at ≤ t then
      match scanParent rest t with
      | some p => some p
      | none => some ac
    else none

/-- Target selection at line 295: the scanned parent, else the first agent call. -/
def pyTarget (acs : List BillingRow) (t : Int) : Option BillingRow :=
  match scanParent acs t with
  | some p => some p
  | none => acs.head?

/-- assign_unlinked_ptc from ptc_common.py lines 280-296: pop the sentinel
group, return early (with the group already popped) when it is empty or no
agent call exists, otherwise append each unlinked ptc row to its target. -/
def assign_unlinked_ptc (agent_calls : List BillingRow) (m : Group) : Group :=
  let unlinked := glookup m "__unlinked__"
  let m1 := gremove m "__unlinked__"
  if unlinked.isEmpty || agent_calls.isEmpty then m1
  else
    unlinked.foldl
      (fun acc p =>
        match pyTarget agent_calls p.created_at with
        | some target => gadd acc target.call_id p
        | none => acc)
      m1

/-- Accumulated state of the organize_billing_calls loop and its result. -/
structure OrganizeOut where
  agent_calls : List BillingRow
  ptc_by_parent : Group
  agent_count : Nat
  ptc_count : Nat
  warnings : List Warning
deriving DecidableEq

/-- One iteration of the organize_billing_calls loop (lines 356-399). -/
def organizeStep (st : OrganizeOut) (r : RawRow) : OrganizeOut :=
  let row := mkRow r
  let st1 :=
    if unbilledCond r then { st with warnings := st.warnings ++ [mkWarning r] }
    else st
  if isPtcRow r then
    { st1 with
        ptc_count := st1.ptc_count + 1
        ptc_by_parent := gadd st1.ptc_by_parent (keyFor r) row }
  else
    { st1 with
        agent_calls := st1.agent_calls ++ [row]
        agent_count := st1.agent_count + 1 }

/-- organize_billing_calls from ptc_common.py lines 340-402. -/
def organize_billing_calls (rows : List RawRow) : OrganizeOut :=
  let st := rows.foldl organizeStep ⟨[], [], 0, 0, []⟩
  { st with ptc_by_parent := assign_unlinked_ptc st.agent_calls st.ptc_by_parent }

/-- Agent rows of the input, as organize_billing_calls produces them. -/
def agentRows (rows : List RawRow) : List BillingRow :=
  (rows.filter (fun r => !isPtcRow r)).map mkRow

/-- Call ids of a list of organized rows (the all_agent_ids set). -/
def agentIdsOf (acs : List BillingRow) : List String :=
  acs.map BillingRow.call_id

/-- Truthiness of the explicit parent reference of a raw row. -/
def truthyRef (r : RawRow) : Bool := pyStrTruthy r.ptc_call_id

/-- String value of the parent reference (meaningful when truthy). -/
def refString (r : RawRow) : String := r.ptc_call_id.getD ""

/-- Orphan filter of print_billing_timeline lines 42-71 and
print_billing_trace lines 46-61: a ptc row with a truthy parent reference
that is not among the agent call ids. -/
def isOrphanRaw (agentIds : List String) (r : RawRow) : Bool :=
  isPtcRow r && truthyRef r && !(agentIds.contains (refString r))

/-- Orphan count of print_checks lines 161-166: total number of children
grouped under a parent id that is not an agent call id. -/
def orphanCount (agentIds : List String) (m : Group) : Nat :=
  ((m.filter (fun kv => !(agentIds.contains kv.1))).map
    (fun kv => kv.2.length)).sum

/-- Overall verdict of the checks section. -/
inductive Verdict where
  | pass
  | fail (issues : List String)
deriving DecidableEq

/-- Issue of the ptc_enabled check, print_checks lines 100-108: fails only
when the flag is explicitly false; an absent column is not a failure. -/
def ptcEnabledIssues (ptc_enabled : Option Bool) : List String :=
  match ptc_enabled with
  | none => []
  | some true => []
  | some false => ["ptc_enabled is false"]

/-- Issue of the action_messages check, print_checks lines 111-122. -/
def messagesIssues (msg_count : Nat) : List String :=
  if msg_count > 0 then [] else ["no action_messages"]

/-- Issue of the temp-API-key check, print_checks lines 125-158: evaluated
only when the run owner uid is truthy; a missing user_api_keys table is not
a failure. -/
def tempKeyIssues (r_uid : Option String) (tableExists keyFound : Bool) :
    List String :=
  if pyStrTruthy r_uid then
    if tableExists then
      if keyFound then [] else ["no temp API key found"]
    else []
  else []

/-- Issue of the ptc_call_id linkage check, print_checks lines 161-179. -/
def linkageIssues (agent_calls : List BillingRow) (m : Group)
    (ptc_count : Nat) : List String :=
  let oc := orphanCount (agentIdsOf agent_calls) m
  if ptc_count == 0 then []
  else if oc == 0 then []
  else [toString oc ++ " orphan PTC call(s)"]

/-- Issue of the credit_usages foreign-key check, print_checks lines 183-209. -/
def creditLinkIssues (total_billed matched : Nat) : List String :=
  if total_billed == 0 then []
  else if total_billed == matched then []
  else [toString (total_billed - matched) ++ " broken credit_usage link(s)"]

/-- Issue of the billing-warnings section, print_checks lines 213-227. -/
def unbilledIssues (warnings : List Warning) : List String :=
  if warnings.isEmpty then []
  else [toString warnings.length ++ " unbilled completed call(s)"]

/-- Sequential issue accumulation of print_checks, ptc_verify.py lines 82-239,
written exactly as the Python code appends to the issues list. -/
def print_checks_issues (ptc_enabled : Option Bool) (msg_count : Nat)
    (r_uid : Option String) (tableExists keyFound : Bool)
    (agent_calls : List BillingRow) (m : Group) (ptc_count : Nat)
    (total_billed matched : Nat) (warnings : List Warning) : List String :=
  let issues : List String := []
  let issues :=
    match ptc_enabled with
    | none => issues
    | some true => issues
    | some false => issues ++ ["ptc_enabled is false"]
  let issues := if msg_count > 0 then issues else issues ++ ["no action_messages"]
  let issues :=
    if pyStrTruthy r_uid then
      if tableExists then
        if keyFound then issues else issues ++ ["no temp API key found"]
      else issues
    else issues
  let oc := orphanCount (agentIdsOf agent_calls) m
  let issues :=
    if ptc_count == 0 then issues
    else if oc == 0 then issues
    else issues ++ [toString oc ++ " orphan PTC call(s)"]
  let issues :=
    if total_billed == 0 then issues
    else if total_billed == matched then issues
    else issues ++ [toString (total_billed - matched) ++ " broken credit_usage link(s)"]
  let issues :=
    if warnings.isEmpty then issues
    else issues ++ [toString warnings.length ++ " unbilled completed call(s)"]
  issues

/-- Final verdict line of print_checks lines 231-238: pass exactly when the
issue list is empty, otherwise fail carrying every issue. -/
def print_checks_verdict (ptc_enabled : Option Bool) (msg_count : Nat)
    (r_uid : Option String) (tableExists keyFound : Bool)
    (agent_calls : List BillingRow) (m : Group) (ptc_count : Nat)
    (total_billed matched : Nat) (warnings : List Warning) : Verdict :=
  let issues := print_checks_issues ptc_enabled msg_count r_uid tableExists
    keyFound agent_calls m ptc_count total_billed matched warnings
  if issues.isEmpty then Verdict.pass else Verdict.fail issues

/-- Aggregate summary of print_billing_trace, ptc_debug_billing.py lines
84-99: the five SQL sums, the derived total and original, and the optional
discount annotation on the Total line. -/
structure TraceSummary where
  tool_credits : Int
  model_credits : Int
  total_credits : Int
  tool_original : Int
  discount_line : Option (Int × Int)
deriving DecidableEq

/-- Inline billing summary of print_billing_trace lines 84-99. The discount
annotation carries the original total and the discount and is emitted only
when the discount is strictly positive. -/
def print_billing_summary (toolAmt modelAmt totalAmt toolDue modelDue :
    Option Int) : TraceSummary :=
  let tool_credits := pyOrZero toolAmt
  let model_credits := pyOrZero modelAmt
  let total_credits := pyOrZero totalAmt
  let tool_original := pyOrZero toolDue + pyOrZero modelDue
  let total_discount := tool_original - total_credits
  { tool_credits := tool_credits
    model_credits := model_credits
    total_credits := total_credits
    tool_original := tool_original
    discount_line :=
      if total_discount > 0 then some (tool_original, total_discount) else none }

/-- Modelled from the claim wording of C7, for comparison with the source
classifier: a present type tag is used directly, an absent one falls back to
the reserved prefix convention. -/
def classifyClaimC7 (tag : Option String) (cid : String) : Bool :=
  match tag with
  | some t => t == "ptc"
  | none => pyStartsWith cid "ptc:"

/-- Last element of a list satisfying a predicate, used to state the claim
wording of C2: the last agent call whose created_at is not later than t. -/
def lastSatisfying (p : α → Bool) : List α → Option α
  | [] => none
  | a :: l =>
    match lastSatisfying p l with
    | some b => some b
    | none => if p a then some a else none

/-- Modelled from the claim wording of C2: the last agent call whose
created_at is at most t, else the first agent call of the sequence. -/
def specTarget (acs : List BillingRow) (t : Int) : Option BillingRow :=
  match lastSatisfying (fun a => decide (a.created_at ≤ t)) acs with
  | some b => some b
  | none => acs.head?

/-- Implicit parent reference in the sense of C2: absent, or present but blank. -/
def implicitRef (r : RawRow) : Prop :=
  r.ptc_call_id = none ∨ r.ptc_call_id = some ""

instance (r : RawRow) : Decidable (implicitRef r) := by
  unfold implicitRef; infer_instance

/-- Membership filter produced by the reattribution fold: a ptc row lands
under key k exactly when its scanned target has call id k. -/
def targetHits (acs : List BillingRow) (k : String) (p : BillingRow) : Bool :=
  match pyTarget acs p.created_at with
  | some t => t.call_id == k
  | none => false

/-- Ptc rows grouped under the internal sentinel key during the first pass. -/
def unlinkedRows (rows : List RawRow) : List BillingRow :=
  (rows.filter (fun r => isPtcRow r && keyFor r == "__unlinked__")).map mkRow

/-- A raw-row transform that rewrites only the original_price column,
used to state that the engine never reads it for anomaly or issue decisions. -/
def setOriginalPrice (g : RawRow → Option Int) (r : RawRow) : RawRow :=
  { r with original_price := g r }

/-- Forget the original_price field of an organized row. -/
def stripOP (b : BillingRow) : BillingRow := { b with original_price := 0 }

/-- Forget the original_price fields throughout the attribution map. -/
def stripGroup (m : Group) : Group :=
  m.map (fun kv => (kv.1, kv.2.map stripOP))

/-- Concrete agent call a1 at time 0. -/
def agA : RawRow :=
  { call_id := "a1", tool_name := "toolA", type := some "agent",
    status := "completed", created_at := 0, updated_at := some 3,
    ptc_call_id := none, toolset_id := some "ts1", credits_charged := some 2,
    original_price := some 2, billing_toolset_key := none }

/-- Concrete agent call a2 at time 15. -/
def agB : RawRow :=
  { call_id := "a2", tool_name := "toolB", type := some "agent",
    status := "completed", created_at := 15, updated_at := some 16,
    ptc_call_id := none, toolset_id := none, credits_charged := some 2,
    original_price := some 2, billing_toolset_key := none }

/-- Concrete implicit pass-through call at time 5. -/
def ptcI : RawRow :=
  { call_id := "ptc:i", tool_name := "toolP", type := some "ptc",
    status := "completed", created_at := 5, updated_at := some 7,
    ptc_call_id := none, toolset_id := some "ts2", credits_charged := some 1,
    original_price := some 1, billing_toolset_key := none }

/-- Concrete implicit pass-through call at time 10. -/
def ptcJ : RawRow :=
  { call_id := "ptc:j", tool_name := "toolP", type := some "ptc",
    status := "completed", created_at := 10, updated_at := none,
    ptc_call_id := none, toolset_id := none, credits_charged := some 1,
    original_price := some 1, billing_toolset_key := none }

/-- Concrete implicit pass-through call at time 20. -/
def ptcK : RawRow :=
  { call_id := "ptc:k", tool_name := "toolP", type := some "ptc",
    status := "completed", created_at := 20, updated_at := none,
    ptc_call_id := none, toolset_id := none, credits_charged := some 1,
    original_price := some 1, billing_toolset_key := none }

/-- Concrete pass-through call at time 10 with explicit parent a1. -/
def ptcE : RawRow :=
  { call_id := "ptc:e", tool_name := "toolP", type := some "ptc",
    status := "completed", created_at := 10, updated_at := none,
    ptc_call_id := some "a1", toolset_id := none, credits_charged := some 1,
    original_price := some 1, billing_toolset_key := none }

/-- Concrete pass-through call at time 5 whose explicit parent X does not
exist. -/
def ptcX : RawRow :=
  { call_id := "ptc:x", tool_name := "toolP", type := some "ptc",
    status := "completed", created_at := 5, updated_at := none,
    ptc_call_id := some "X", toolset_id := none, credits_charged := some 1,
    original_price := some 1, billing_toolset_key := none }

/-- Concrete pass-through call at time 5 whose explicit parent reference is
the internal sentinel string. -/
def ptcS : RawRow :=
  { call_id := "ptc:s", tool_name := "toolP", type := some "ptc",
    status := "completed", created_at := 5, updated_at := none,
    ptc_call_id := some "__unlinked__", toolset_id := none,
    credits_charged := some 1, original_price := some 1,
    billing_toolset_key := none }

/-- Concrete completed agent call charged more credits than its original
price. -/
def agV : RawRow :=
  { call_id := "a5", tool_name := "toolV", type := some "agent",
    status := "completed", created_at := 0, updated_at := some 2,
    ptc_call_id := none, toolset_id := some "ts5", credits_charged := some 5,
    original_price := some 3, billing_toolset_key := none }

/-! Lemmas about the association-list grouping operations. -/

theorem glookup_gadd_self (m : Group) (k : String) (r : BillingRow) :
    glookup (gadd m k r) k = glookup m k ++ [r] := by
  induction m with
  | nil => simp [gadd, glookup]
  | cons kv rest ih =>
    obtain ⟨k1, v⟩ := kv
    by_cases h : k1 = k
    · subst h; simp [gadd, glookup]
    · simp [gadd, glookup, beq_iff_eq, h, ih]

theorem glookup_gadd_ne (m : Group) (k k1 : String) (r : BillingRow)
    (h : k1 ≠ k) : glookup (gadd m k r) k1 = glookup m k1 := by
  induction m with
  | nil => simp [gadd, glookup, beq_iff_eq, Ne.symm h]
  | cons kv rest ih =>
    obtain ⟨k2, v⟩ := kv
    by_cases h2 : k2 = k
    · subst h2
      simp [gadd, glookup, beq_iff_eq, Ne.symm h]
    · by_cases h3 : k2 = k1
      · subst h3; simp [gadd, glookup, beq_iff_eq, h2]
      · simp [gadd, glookup, beq_iff_eq, h2, h3, ih]

theorem glookup_gremove_self (m : Group) (k : String) :
    glookup (gremove m k) k = [] := by
  induction m with
  | nil => simp [gremove, glookup]
  | cons kv rest ih =>
    obtain ⟨k1, v⟩ := kv
    by_cases h : k1 = k
    · subst h; simpa [gremove, glookup] using ih
    · simpa [gremove, glookup, beq_iff_eq, h] using ih

theorem glookup_gremove_ne (m : Group) (k k1 : String) (h : k1 ≠ k) :
    glookup (gremove m k) k1 = glookup m k1 := by
  induction m with
  | nil => simp [gremove, glookup]
  | cons kv rest ih =>
    obtain ⟨k2, v⟩ := kv
    by_cases h2 : k2 = k
    · subst h2
      simpa [gremove, glookup, beq_iff_eq, Ne.symm h] using ih
    · by_cases h3 : k2 = k1
      · subst h3; simp [gremove, glookup, beq_iff_eq, h2]
      · simpa [gremove, glookup, beq_iff_eq, h2, h3] using ih

/-! Characterization of the organize loop by generalized induction. -/

theorem foldl_agent_calls (rows : List RawRow) (st : OrganizeOut) :
    (rows.foldl organizeStep st).agent_calls =
      st.agent_calls ++ (rows.filter (fun r => !isPtcRow r)).map mkRow := by
  induction rows generalizing st with
  | nil => simp
  | cons r rest ih =>
    by_cases hw : unbilledCond r <;> by_cases hp : isPtcRow r <;>
      simp [organizeStep, hw, hp, ih]

theorem foldl_warnings (rows : List RawRow) (st : OrganizeOut) :
    (rows.foldl organizeStep st).warnings =
      st.warnings ++ (rows.filter unbilledCond).map mkWarning := by
  induction rows generalizing st with
  | nil => simp
  | cons r rest ih =>
    by_cases hw : unbilledCond r <;> by_cases hp : isPtcRow r <;>
      simp [organizeStep, hw, hp, ih]

theorem foldl_ptc_count (rows : List RawRow) (st : OrganizeOut) :
    (rows.foldl organizeStep st).ptc_count =
      st.ptc_count + (rows.filter (fun r => isPtcRow r)).length := by
  induction rows generalizing st with
  | nil => simp
  | cons r rest ih =>
    by_cases hw : unbilledCond r <;> by_cases hp : isPtcRow r <;>
      simp [organizeStep, hw, hp, ih] <;> omega

theorem foldl_agent_count (rows : List RawRow) (st : OrganizeOut) :
    (rows.foldl organizeStep st).agent_count =
      st.agent_count + (rows.filter (fun r => !isPtcRow r)).length := by
  induction rows generalizing st with
  | nil => simp
  | cons r rest ih =>
    by_cases hw : unbilledCond r <;> by_cases hp : isPtcRow r <;>
      simp [organizeStep, hw, hp, ih] <;> omega

theorem foldl_glookup (rows : List RawRow) (st : OrganizeOut) (k : String) :
    glookup (rows.foldl organizeStep st).ptc_by_parent k =
      glookup st.ptc_by_parent k ++
        (rows.filter (fun r => isPtcRow r && keyFor r == k)).map mkRow := by
  induction rows generalizing st with
  | nil => simp
  | cons r rest ih =>
    by_cases hp : isPtcRow r
    · by_cases hk : keyFor r = k
      · subst hk
        by_cases hw : unbilledCond r <;>
          simp [organizeStep, hw, hp, ih, glookup_gadd_self]
      · by_cases hw : unbilledCond r <;>
          simp [organizeStep, hw, hp, hk, ih, beq_iff_eq,
            glookup_gadd_ne _ _ _ _ (Ne.symm hk)]
    · by_cases hw : unbilledCond r <;> simp [organizeStep, hw, hp, ih]

theorem glookup_foldl_gadd (acs : List BillingRow) (unl : List BillingRow)
    (m : Group) (k : String) :
    glookup
      (unl.foldl
        (fun acc p =>
          match pyTarget acs p.created_at with
          | some target => gadd acc target.call_id p
          | none => acc) m) k =
      glookup m k ++ unl.filter (targetHits acs k) := by
  induction unl generalizing m with
  | nil => simp
  | cons p rest ih =>
    simp only [List.foldl_cons]
    rcases htgt : pyTarget acs p.created_at with _ | t
    · simp [ih, targetHits, htgt]
    · by_cases hk : t.call_id = k
      · subst hk
        simp [ih, targetHits, htgt, glookup_gadd_self]
      · simp [ih, targetHits, htgt, beq_iff_eq, hk,
          glookup_gadd_ne _ _ _ _ (Ne.symm hk)]

theorem glookup_assign (acs : List BillingRow) (m : Group) (k : String) :
    glookup (assign_unlinked_ptc acs m) k =
      (if k = "__unlinked__" then [] else glookup m k) ++
        (if acs.isEmpty then []
         else (glookup m "__unlinked__").filter (targetHits acs k)) := by
  unfold assign_unlinked_ptc
  by_cases hu : (glookup m "__unlinked__").isEmpty
  · rw [List.isEmpty_iff] at hu
    by_cases hk : k = "__unlinked__"
    · subst hk; simp [hu, glookup_gremove_self]
    · simp [hu, hk, glookup_gremove_ne _ _ _ hk]
  · by_cases ha : acs.isEmpty
    · rw [List.isEmpty_iff] at ha
      subst ha
      by_cases hk : k = "__unlinked__"
      · subst hk
        simp [List.isEmpty_iff.mpr, glookup_gremove_self,
          List.isEmpty_nil, Bool.or_true]
      · simp [hk, glookup_gremove_ne _ _ _ hk]
    · simp only [hu, ha, Bool.or_self, Bool.false_eq_true, if_false,
        glookup_foldl_gadd]
      by_cases hk : k = "__unlinked__"
      · subst hk; simp [glookup_gremove_self]
      · simp [hk, glookup_gremove_ne _ _ _ hk]

/-- Master characterization of the attributed map: the child list under key
k is the explicitly keyed group (empty for the sentinel key, which is always
popped) followed by the implicitly reattributed rows whose temporal target
is k (present only when at least one agent call exists). -/
theorem glookup_organize (rows : List RawRow) (k : String) :
    glookup (organize_billing_calls rows).ptc_by_parent k =
      (if k = "__unlinked__" then []
       else (rows.filter (fun r => isPtcRow r && keyFor r == k)).map mkRow) ++
        (if (agentRows rows).isEmpty then []
         else (unlinkedRows rows).filter (targetHits (agentRows rows) k)) := by
  unfold organize_billing_calls
  simp only [glookup_assign, foldl_glookup, foldl_agent_calls, glookup,
    List.nil_append, unlinkedRows, agentRows]

theorem organize_agent_calls (rows : List RawRow) :
    (organize_billing_calls rows).agent_calls = agentRows rows := by
  unfold organize_billing_calls
  simp [foldl_agent_calls, agentRows]

theorem organize_warnings (rows : List RawRow) :
    (organize_billing_calls rows).warnings =
      (rows.filter unbilledCond).map mkWarning := by
  unfold organize_billing_calls
  simp [foldl_warnings]

theorem organize_ptc_count (rows : List RawRow) :
    (organize_billing_calls rows).ptc_count =
      (rows.filter (fun r => isPtcRow r)).length := by
  unfold organize_billing_calls
  simp [foldl_ptc_count]

theorem organize_agent_count (rows : List RawRow) :
    (organize_billing_calls rows).agent_count =
      (rows.filter (fun r => !isPtcRow r)).length := by
  unfold organize_billing_calls
  simp [foldl_agent_count]

/-! Temporal-scan lemmas: on a creation-time sorted agent list the break
based scan coincides with the claim level last-preceding selection. -/

theorem lastSatisfying_eq_none {α : Type} (p : α → Bool) (l : List α)
    (h : ∀ a ∈ l, p a = false) : lastSatisfying p l = none := by
  induction l with
  | nil => rfl
  | cons a rest ih =>
    have ha := h a (by simp)
    simp [lastSatisfying, ih fun b hb => h b (by simp [hb]), ha]

theorem lastSatisfying_mem {α : Type} (p : α → Bool) (l : List α) (a : α)
    (h : lastSatisfying p l = some a) : a ∈ l := by
  induction l with
  | nil => simp [lastSatisfying] at h
  | cons b rest ih =>
    simp only [lastSatisfying] at h
    rcases hr : lastSatisfying p rest with _ | c
    · rw [hr] at h
      by_cases hp : p b
      · simp [hp] at h; simp [h]
      · simp [hp] at h
    · rw [hr] at h
      simp only [Option.some.injEq] at h
      subst h
      exact List.mem_cons_of_mem _ (ih hr)

theorem scanParent_sorted (acs : List BillingRow) (t : Int)
    (h : acs.Pairwise (fun x y => x.created_at ≤ y.created_at)) :
    scanParent acs t = lastSatisfying (fun a => decide (a.created_at ≤ t)) acs := by
  induction acs with
  | nil => rfl
  | cons a rest ih =>
    rw [List.pairwise_cons] at h
    by_cases hp : a.created_at ≤ t
    · have hrest := ih h.2
      rcases hv : lastSatisfying (fun a => decide (a.created_at ≤ t)) rest with _ | c
      · simp [scanParent, hp, lastSatisfying, hrest, hv]
      · simp [scanParent, hp, lastSatisfying, hrest, hv]
    · have hall : ∀ b ∈ rest, (fun a => decide (a.created_at ≤ t)) b = false := by
        intro b hb
        simp only [decide_eq_false_iff_not]
        intro hbt
        exact hp (le_trans (h.1 b hb) hbt)
      simp [scanParent, hp, lastSatisfying, lastSatisfying_eq_none _ _ hall]

theorem pyTarget_eq_specTarget (acs : List BillingRow) (t : Int)
    (h : acs.Pairwise (fun x y => x.created_at ≤ y.created_at)) :
    pyTarget acs t = specTarget acs t := by
  unfold pyTarget specTarget
  rw [scanParent_sorted acs t h]

theorem scanParent_mem (acs : List BillingRow) (t : Int) (a : BillingRow)
    (h : scanParent acs t = some a) : a ∈ acs := by
  induction acs with
  | nil => simp [scanParent] at h
  | cons b rest ih =>
    simp only [scanParent] at h
    by_cases hb : b.created_at ≤ t
    · rw [if_pos hb] at h
      rcases hr : scanParent rest t with _ | c
      · rw [hr] at h
        simp only [Option.some.injEq] at h
        simp [h]
      · rw [hr] at h
        simp only [Option.some.injEq] at h
        subst h
        exact List.mem_cons_of_mem _ (ih hr)
    · rw [if_neg hb] at h
      cases h

theorem pyTarget_mem (acs : List BillingRow) (t : Int) (a : BillingRow)
    (h : pyTarget acs t = some a) : a ∈ acs := by
  unfold pyTarget at h
  rcases hs : scanParent acs t with _ | p
  · rw [hs] at h
    exact List.mem_of_mem_head? h
  · rw [hs] at h
    simp only [Option.some.injEq] at h
    subst h
    exact scanParent_mem acs t _ hs

theorem pyTarget_isSome (acs : List BillingRow) (t : Int) (h : acs ≠ []) :
    ∃ a, pyTarget acs t = some a := by
  unfold pyTarget
  rcases hs : scanParent acs t with _ | p
  · rcases acs with _ | ⟨a, rest⟩
    · exact absurd rfl h
    · exact ⟨a, rfl⟩
  · exact ⟨p, rfl⟩

/-! Injectivity of row construction under unique call ids. -/

theorem mkRow_call_id (r : RawRow) : (mkRow r).call_id = r.call_id := rfl

theorem raw_inj (rows : List RawRow)
    (hnodup : (rows.map RawRow.call_id).Nodup) :
    ∀ r ∈ rows, ∀ r2 ∈ rows, r.call_id = r2.call_id → r = r2 := by
  intro r hr r2 hr2 h
  exact List.inj_on_of_nodup_map hnodup hr hr2 h

theorem mem_filter_map_mkRow (rows : List RawRow) (P : RawRow → Bool)
    (hnodup : (rows.map RawRow.call_id).Nodup) (r : RawRow) (hr : r ∈ rows) :
    mkRow r ∈ (rows.filter P).map mkRow ↔ P r = true := by
  constructor
  · intro hmem
    rcases List.mem_map.mp hmem with ⟨r2, hr2, heq⟩
    rcases List.mem_filter.mp hr2 with ⟨hr2m, hP⟩
    have hid : r2.call_id = r.call_id := by
      rw [← mkRow_call_id, ← mkRow_call_id, heq]
    rw [raw_inj rows hnodup r2 hr2m r hr hid] at hP
    exact hP
  · intro hP
    exact List.mem_map_of_mem mkRow (List.mem_filter.mpr ⟨hr, hP⟩)

/-! Orphan-count lemma: a nonempty group under a non-agent key makes the
orphan count positive. -/

theorem orphanCount_pos (agentIds : List String) (m : Group) (k : String)
    (hk : agentIds.contains k = false) (hne : glookup m k ≠ []) :
    0 < orphanCount agentIds m := by
  induction m with
  | nil => simp [glookup] at hne
  | cons kv rest ih =>
    obtain ⟨k1, v⟩ := kv
    by_cases h1 : k1 = k
    · subst h1
      simp only [glookup, beq_self_eq_true, if_true] at hne
      simp only [orphanCount, List.filter_cons, hk, Bool.not_false, if_true]
      have : 0 < v.length := List.length_pos.mpr hne
      simp only [List.map_cons, List.sum_cons]
      omega
    · simp only [glookup, beq_iff_eq, h1, if_false] at hne
      have hrec := ih hne
      unfold orphanCount at hrec ⊢
      rw [List.filter_cons]
      by_cases h2 : agentIds.contains k1 = true
      · simp only [h2, Bool.not_true, if_false]
        exact hrec
      · rw [Bool.not_eq_true] at h2
        simp only [h2, Bool.not_false, if_true, List.map_cons, List.sum_cons]
        omega

/-! Decomposition of the sequential issue accumulation into the six
independent check functions. -/

theorem stage_pe (pe : Option Bool) (l : List String) :
    (match pe with
     | none => l
     | some true => l
     | some false => l ++ ["ptc_enabled is false"]) = l ++ ptcEnabledIssues pe := by
  rcases pe with _ | b
  · simp [ptcEnabledIssues]
  · cases b <;> simp [ptcEnabledIssues]

theorem stage_msg (mc : Nat) (l : List String) :
    (if mc > 0 then l else l ++ ["no action_messages"]) =
      l ++ messagesIssues mc := by
  by_cases h : mc > 0 <;> simp [messagesIssues, h]

theorem stage_key (uid : Option String) (te kf : Bool) (l : List String) :
    (if pyStrTruthy uid then
       if te then if kf then l else l ++ ["no temp API key found"] else l
     else l) = l ++ tempKeyIssues uid te kf := by
  by_cases h1 : pyStrTruthy uid <;> by_cases h2 : te <;> by_cases h3 : kf <;>
    simp [tempKeyIssues, h1, h2, h3]

theorem stage_link (acs : List BillingRow) (m : Group) (pc : Nat)
    (l : List String) :
    (if pc == 0 then l
     else if orphanCount (agentIdsOf acs) m == 0 then l
     else l ++ [toString (orphanCount (agentIdsOf acs) m) ++ " orphan PTC call(s)"]) =
      l ++ linkageIssues acs m pc := by
  by_cases h1 : pc == 0 <;>
    by_cases h2 : orphanCount (agentIdsOf acs) m == 0 <;>
      simp [linkageIssues, h1, h2]

theorem stage_credit (tb ma : Nat) (l : List String) :
    (if tb == 0 then l
     else if tb == ma then l
     else l ++ [toString (tb - ma) ++ " broken credit_usage link(s)"]) =
      l ++ creditLinkIssues tb ma := by
  by_cases h1 : tb == 0 <;> by_cases h2 : tb == ma <;>
    simp [creditLinkIssues, h1, h2]

theorem stage_warn (ws : List Warning) (l : List String) :
    (if ws.isEmpty then l
     else l ++ [toString ws.length ++ " unbilled completed call(s)"]) =
      l ++ unbilledIssues ws := by
  by_cases h : ws.isEmpty <;> simp [unbilledIssues, h]

theorem print_checks_issues_decompose (pe : Option Bool) (mc : Nat)
    (uid : Option String) (te kf : Bool) (acs : List BillingRow) (m : Group)
    (pc tb ma : Nat) (ws : List Warning) :
    print_checks_issues pe mc uid te kf acs m pc tb ma ws =
      ptcEnabledIssues pe ++ messagesIssues mc ++ tempKeyIssues uid te kf ++
        linkageIssues acs m pc ++ creditLinkIssues tb ma ++ unbilledIssues ws := by
  unfold print_checks_issues
  dsimp only
  rw [stage_warn, stage_credit, stage_link, stage_key, stage_msg, stage_pe]
  simp [List.append_assoc]

/-- Claim C6: the verification verdict is Pass exactly when the accumulated
issue list is empty; the issue list is the concatenation of the six
independent checks (no short-circuiting), the feature-flag check does not
fail when the flag is absent, the credential check contributes nothing when
no run owner identity is known, and a Fail verdict carries the full issue
list. -/
theorem verdict_pass_iff_no_issues (pe : Option Bool) (mc : Nat)
    (uid : Option String) (te kf : Bool) (acs : List BillingRow) (m : Group)
    (pc tb ma : Nat) (ws : List Warning) :
    (print_checks_issues pe mc uid te kf acs m pc tb ma ws =
      ptcEnabledIssues pe ++ messagesIssues mc ++ tempKeyIssues uid te kf ++
        linkageIssues acs m pc ++ creditLinkIssues tb ma ++ unbilledIssues ws)
    ∧ (print_checks_verdict pe mc uid te kf acs m pc tb ma ws = Verdict.pass ↔
        print_checks_issues pe mc uid te kf acs m pc tb ma ws = [])
    ∧ (∀ l, print_checks_verdict pe mc uid te kf acs m pc tb ma ws =
          Verdict.fail l →
        l = print_checks_issues pe mc uid te kf acs m pc tb ma ws)
    ∧ ptcEnabledIssues none = []
    ∧ tempKeyIssues none te kf = [] := by
  refine ⟨print_checks_issues_decompose pe mc uid te kf acs m pc tb ma ws,
    ?_, ?_, rfl, rfl⟩
  · unfold print_checks_verdict
    by_cases h : (print_checks_issues pe mc uid te kf acs m pc tb ma ws).isEmpty
    · rw [List.isEmpty_iff] at h
      simp [h]
    · rw [if_neg h]
      rw [Bool.not_eq_true, List.isEmpty_eq_false_iff_exists_mem] at h
      rcases h with ⟨x, hx⟩
      constructor
      · intro hc; cases hc
      · intro hc; rw [hc] at hx; cases hx
  · intro l hl
    unfold print_checks_verdict at hl
    by_cases h : (print_checks_issues pe mc uid te kf acs m pc tb ma ws).isEmpty
    · rw [if_pos h] at hl; cases hl
    · rw [if_neg h] at hl
      cases hl; rfl

/-- Witness for C6 at a concrete failing configuration: zero conversation
messages yield exactly that one issue, carried by the Fail verdict. -/
theorem verdict_pass_iff_no_issues_witness :
    ["no action_messages"] =
      print_checks_issues (some true) 0 (some "u") true true [] [] 0 0 0 [] :=
  (verdict_pass_iff_no_issues (some true) 0 (some "u") true true [] [] 0 0 0
      []).2.2.1 ["no action_messages"] (by decide)

/-- Claim C9: in the aggregate billing summary the discount equals the
original price total minus the credits total, the discount annotation is
emitted exactly when that difference is strictly positive, any reported
discount is positive (never negative), and equal totals produce no
discount line. -/
theorem billing_summary_discount (toolAmt modelAmt totalAmt toolDue modelDue :
    Option Int) :
    ((print_billing_summary toolAmt modelAmt totalAmt toolDue modelDue).discount_line ≠ none ↔
      0 < (print_billing_summary toolAmt modelAmt totalAmt toolDue modelDue).tool_original -
          (print_billing_summary toolAmt modelAmt totalAmt toolDue modelDue).total_credits)
    ∧ (∀ o d,
        (print_billing_summary toolAmt modelAmt totalAmt toolDue modelDue).discount_line =
            some (o, d) →
          d = (print_billing_summary toolAmt modelAmt totalAmt toolDue modelDue).tool_original -
              (print_billing_summary toolAmt modelAmt totalAmt toolDue modelDue).total_credits
          ∧ 0 < d
          ∧ o = (print_billing_summary toolAmt modelAmt totalAmt toolDue modelDue).tool_original)
    ∧ ((print_billing_summary toolAmt modelAmt totalAmt toolDue modelDue).tool_original =
          (print_billing_summary toolAmt modelAmt totalAmt toolDue modelDue).total_credits →
        (print_billing_summary toolAmt modelAmt totalAmt toolDue modelDue).discount_line = none) := by
  by_cases h : 0 < pyOrZero toolDue + pyOrZero modelDue - pyOrZero totalAmt
  · refine ⟨?_, ?_, ?_⟩
    · simp [print_billing_summary, h]
    · intro o d hline
      simp only [print_billing_summary, if_pos h, Option.some.injEq,
        Prod.mk.injEq] at hline
      simp [print_billing_summary, ← hline.1, ← hline.2, h]
    · intro heq
      simp only [print_billing_summary] at heq
      omega
  · refine ⟨?_, ?_, ?_⟩
    · simp [print_billing_summary, h]
    · intro o d hline
      simp [print_billing_summary, h] at hline
    · intro _
      simp [print_billing_summary, h]

/-- Witness for C9: a concrete run with original 10 and credits 8 reports
discount 2. -/
theorem billing_summary_discount_witness :
    (2 : Int) =
        (print_billing_summary (some 5) (some 3) (some 8) (some 6) (some 4)).tool_original -
          (print_billing_summary (some 5) (some 3) (some 8) (some 6) (some 4)).total_credits
      ∧ (0 : Int) < 2
      ∧ (10 : Int) =
        (print_billing_summary (some 5) (some 3) (some 8) (some 6) (some 4)).tool_original :=
  (billing_summary_discount (some 5) (some 3) (some 8) (some 6) (some 4)).2.1
    10 2 (by decide)

/-- Counterexample to C7 as stated: a record whose type tag is present but
empty is classified by the code through the call-id prefix convention (here
as a pass-through call), while the claim, reading a present tag directly,
would classify it as an agent call. -/
theorem classifier_empty_tag_counterexample :
    isPtcRow
        { call_id := "ptc:x", tool_name := "t", type := some "",
          status := "completed", created_at := 0, updated_at := none,
          ptc_call_id := none, toolset_id := none, credits_charged := none,
          original_price := none, billing_toolset_key := none } = true
    ∧ classifyClaimC7 (some "") "ptc:x" = false
    ∧ (some "" : Option String) ≠ none
    ∧ (some "" : Option String) ≠ some "ptc" := by
  exact ⟨by decide, by decide, by decide, by decide⟩

/-- Claim C7 amended: a present and non-empty type tag is used directly
(ptc means pass-through, anything else agent); an absent or empty tag falls
back to the reserved call-id prefix convention. -/
theorem classifier_cases (r : RawRow) :
    (∀ t, r.type = some t → t ≠ "" → (isPtcRow r = true ↔ t = "ptc"))
    ∧ ((r.type = none ∨ r.type = some "") →
        (isPtcRow r = true ↔ pyStartsWith r.call_id "ptc:" = true)) := by
  constructor
  · intro t ht hne
    simp [isPtcRow, ht, hne]
  · rintro (h | h) <;> simp [isPtcRow, h]

/-- Witness for C7 amended at a concrete tagged record. -/
theorem classifier_cases_witness :
    isPtcRow
        { call_id := "tc-1", tool_name := "t", type := some "ptc",
          status := "completed", created_at := 0, updated_at := none,
          ptc_call_id := none, toolset_id := none, credits_charged := none,
          original_price := none, billing_toolset_key := none } = true
      ↔ "ptc" = "ptc" :=
  (classifier_cases
      { call_id := "tc-1", tool_name := "t", type := some "ptc",
        status := "completed", created_at := 0, updated_at := none,
        ptc_call_id := none, toolset_id := none, credits_charged := none,
        original_price := none, billing_toolset_key := none }).1
    "ptc" rfl (by decide)

/-- Claim C5: an unbilled-success anomaly is emitted for a call record,
orphans included, exactly when its status is completed, its charged credits
(missing read as zero) are zero and its tool is not on the non-billable
allow-list; and a non-empty anomaly list contributes the unbilled issue and
forces a Fail verdict. -/
theorem unbilled_success_iff (rows : List RawRow) :
    ((organize_billing_calls rows).warnings =
      (rows.filter (fun r =>
        r.status == "completed" && pyOrZero r.credits_charged == 0 &&
          !(NON_BILLABLE_TOOL_NAMES.contains r.tool_name))).map mkWarning)
    ∧ (∀ pe mc uid te kf tb ma,
        (organize_billing_calls rows).warnings ≠ [] →
          (toString (organize_billing_calls rows).warnings.length ++
              " unbilled completed call(s)") ∈
            print_checks_issues pe mc uid te kf
              (organize_billing_calls rows).agent_calls
              (organize_billing_calls rows).ptc_by_parent
              (organize_billing_calls rows).ptc_count tb ma
              (organize_billing_calls rows).warnings
          ∧ print_checks_verdict pe mc uid te kf
              (organize_billing_calls rows).agent_calls
              (organize_billing_calls rows).ptc_by_parent
              (organize_billing_calls rows).ptc_count tb ma
              (organize_billing_calls rows).warnings =
            Verdict.fail
              (print_checks_issues pe mc uid te kf
                (organize_billing_calls rows).agent_calls
                (organize_billing_calls rows).ptc_by_parent
                (organize_billing_calls rows).ptc_count tb ma
                (organize_billing_calls rows).warnings)) := by
  constructor
  · rw [organize_warnings]
    rfl
  · intro pe mc uid te kf tb ma hne
    have hmem : (toString (organize_billing_calls rows).warnings.length ++
        " unbilled completed call(s)") ∈
        print_checks_issues pe mc uid te kf
          (organize_billing_calls rows).agent_calls
          (organize_billing_calls rows).ptc_by_parent
          (organize_billing_calls rows).ptc_count tb ma
          (organize_billing_calls rows).warnings := by
      rw [print_checks_issues_decompose]
      have : (toString (organize_billing_calls rows).warnings.length ++
          " unbilled completed call(s)") ∈
          unbilledIssues (organize_billing_calls rows).warnings := by
        unfold unbilledIssues
        rw [if_neg (by simpa [List.isEmpty_iff] using hne)]
        simp
      simp only [List.mem_append]
      tauto
    refine ⟨hmem, ?_⟩
    unfold print_checks_verdict
    rw [if_neg]
    intro hempty
    rw [List.isEmpty_iff] at hempty
    rw [hempty] at hmem
    cases hmem

/-- Witness for C5: scenario C, a completed agent call with zero credits on
a billable tool produces exactly one anomaly and the unbilled issue with a
Fail verdict. -/
theorem unbilled_success_iff_witness :
    ("1 unbilled completed call(s)" ∈
        print_checks_issues (some true) 1 (some "u") true true
          (organize_billing_calls
            [{ call_id := "a9", tool_name := "paid_tool", type := some "agent",
               status := "completed", created_at := 0, updated_at := some 1,
               ptc_call_id := none, toolset_id := some "ts",
               credits_charged := some 0, original_price := some 3,
               billing_toolset_key := none }]).agent_calls
          (organize_billing_calls
            [{ call_id := "a9", tool_name := "paid_tool", type := some "agent",
               status := "completed", created_at := 0, updated_at := some 1,
               ptc_call_id := none, toolset_id := some "ts",
               credits_charged := some 0, original_price := some 3,
               billing_toolset_key := none }]).ptc_by_parent
          (organize_billing_calls
            [{ call_id := "a9", tool_name := "paid_tool", type := some "agent",
               status := "completed", created_at := 0, updated_at := some 1,
               ptc_call_id := none, toolset_id := some "ts",
               credits_charged := some 0, original_price := some 3,
               billing_toolset_key := none }]).ptc_count 1 1
          (organize_billing_calls
            [{ call_id := "a9", tool_name := "paid_tool", type := some "agent",
               status := "completed", created_at := 0, updated_at := some 1,
               ptc_call_id := none, toolset_id := some "ts",
               credits_charged := some 0, original_price := some 3,
               billing_toolset_key := none }]).warnings) := by
  have h :=
    ((unbilled_success_iff
        [{ call_id := "a9", tool_name := "paid_tool", type := some "agent",
           status := "completed", created_at := 0, updated_at := some 1,
           ptc_call_id := none, toolset_id := some "ts",
           credits_charged := some 0, original_price := some 3,
           billing_toolset_key := none }]).2
      (some true) 1 (some "u") true true 1 1 (by decide)).1
  exact h

theorem mkRow_created_at (r : RawRow) : (mkRow r).created_at = r.created_at :=
  rfl

theorem agentRows_sorted (rows : List RawRow)
    (h : rows.Pairwise (fun x y => x.created_at ≤ y.created_at)) :
    (agentRows rows).Pairwise (fun x y => x.created_at ≤ y.created_at) := by
  unfold agentRows
  rw [List.pairwise_map]
  exact (h.sublist (List.filter_sublist rows))

theorem keyFor_implicit (r : RawRow) (h : implicitRef r) :
    keyFor r = "__unlinked__" := by
  rcases h with h | h <;> simp [keyFor, h]

/-- Claim C2: every implicit pass-through call (parent reference absent, a
blank reference being equivalent to an absent one) is attributed, when at
least one agent call exists, to the last agent call whose creation time is
not later than its own, or to the first agent call when no agent call
precedes it. -/
theorem implicit_attribution (rows : List RawRow)
    (hsorted : rows.Pairwise (fun x y => x.created_at ≤ y.created_at))
    (hagent : agentRows rows ≠ []) :
    ∀ r ∈ rows, isPtcRow r = true → implicitRef r →
      ∃ tgt, specTarget (agentRows rows) r.created_at = some tgt ∧
        mkRow r ∈
          glookup (organize_billing_calls rows).ptc_by_parent tgt.call_id := by
  intro r hr hptc himp
  have hsa := agentRows_sorted rows hsorted
  obtain ⟨tgt, htgt⟩ := pyTarget_isSome (agentRows rows) r.created_at hagent
  refine ⟨tgt, by rw [← pyTarget_eq_specTarget _ _ hsa]; exact htgt, ?_⟩
  rw [glookup_organize]
  refine List.mem_append_right _ ?_
  rw [if_neg (by simpa [List.isEmpty_iff] using hagent)]
  refine List.mem_filter.mpr ⟨?_, ?_⟩
  · unfold unlinkedRows
    refine List.mem_map_of_mem mkRow (List.mem_filter.mpr ⟨hr, ?_⟩)
    simp [hptc, keyFor_implicit r himp]
  · unfold targetHits
    rw [mkRow_created_at, htgt]
    simp

/-- Witness for C2: scenario E, implicit calls at times 10 and 20 with
agents at times 0 and 15; the call at time 10 goes to the agent at time 0. -/
theorem implicit_attribution_witness :
    ∃ tgt, specTarget (agentRows [agA, ptcJ, agB, ptcK]) ptcJ.created_at =
        some tgt ∧
      mkRow ptcJ ∈
        glookup (organize_billing_calls [agA, ptcJ, agB, ptcK]).ptc_by_parent
          tgt.call_id :=
  implicit_attribution [agA, ptcJ, agB, ptcK] (by decide) (by decide) ptcJ
    (by decide) (by decide) (by decide)

theorem keyFor_none (r : RawRow) (h : r.ptc_call_id = none) :
    keyFor r = "__unlinked__" := by
  simp [keyFor, h]

theorem keyFor_blank (r : RawRow) (h : r.ptc_call_id = some "") :
    keyFor r = "__unlinked__" := by
  simp [keyFor, h]

theorem keyFor_some (r : RawRow) (s : String) (h : r.ptc_call_id = some s)
    (hs : s ≠ "") : keyFor r = s := by
  simp [keyFor, h, hs]

theorem agentIds_nodup (rows : List RawRow)
    (hnodup : (rows.map RawRow.call_id).Nodup) :
    ((agentRows rows).map BillingRow.call_id).Nodup := by
  unfold agentRows
  rw [List.map_map]
  have heq : (rows.filter (fun r => !isPtcRow r)).map
      (BillingRow.call_id ∘ mkRow) =
      (rows.filter (fun r => !isPtcRow r)).map RawRow.call_id := by
    simp [Function.comp, mkRow_call_id]
  rw [heq]
  exact hnodup.sublist ((List.filter_sublist rows).map RawRow.call_id)

theorem agent_mem_inj (rows : List RawRow)
    (hnodup : (rows.map RawRow.call_id).Nodup) :
    ∀ a ∈ agentRows rows, ∀ b ∈ agentRows rows, a.call_id = b.call_id →
      a = b := by
  intro a ha b hb h
  exact List.inj_on_of_nodup_map (agentIds_nodup rows hnodup) ha hb h

theorem targetHits_eq (acs : List BillingRow) (k : String) (p : BillingRow)
    (h : targetHits acs k p = true) :
    ∃ t, pyTarget acs p.created_at = some t ∧ t.call_id = k := by
  unfold targetHits at h
  rcases ht : pyTarget acs p.created_at with _ | t
  · rw [ht] at h; cases h
  · rw [ht] at h
    exact ⟨t, rfl, by simpa [beq_iff_eq] using h⟩

/-- Membership characterization for an input ptc row in the attributed map
under unique call ids: it sits under key k either as an explicitly keyed
child or as a reattributed implicit child whose temporal target is k. -/
theorem mem_glookup_organize_iff (rows : List RawRow)
    (hnodup : (rows.map RawRow.call_id).Nodup) (r : RawRow) (hr : r ∈ rows)
    (hptc : isPtcRow r = true) (k : String) :
    mkRow r ∈ glookup (organize_billing_calls rows).ptc_by_parent k ↔
      (k ≠ "__unlinked__" ∧ keyFor r = k) ∨
        (agentRows rows ≠ [] ∧ keyFor r = "__unlinked__" ∧
          targetHits (agentRows rows) k (mkRow r) = true) := by
  rw [glookup_organize, List.mem_append]
  constructor
  · rintro (h1 | h2)
    · by_cases hk : k = "__unlinked__"
      · rw [if_pos hk] at h1; cases h1
      · rw [if_neg hk] at h1
        have := (mem_filter_map_mkRow rows _ hnodup r hr).mp h1
        simp only [Bool.and_eq_true, beq_iff_eq] at this
        exact Or.inl ⟨hk, this.2⟩
    · by_cases ha : (agentRows rows).isEmpty
      · rw [if_pos ha] at h2; cases h2
      · rw [if_neg ha] at h2
        rcases List.mem_filter.mp h2 with ⟨hmem, hhit⟩
        have := (mem_filter_map_mkRow rows _ hnodup r hr).mp hmem
        simp only [Bool.and_eq_true, beq_iff_eq] at this
        refine Or.inr ⟨?_, this.2, hhit⟩
        intro hnil
        rw [hnil] at ha
        exact ha rfl
  · rintro (⟨hk, hkey⟩ | ⟨hne, hkey, hhit⟩)
    · refine Or.inl ?_
      rw [if_neg hk]
      exact (mem_filter_map_mkRow rows _ hnodup r hr).mpr
        (by simp [hptc, hkey])
    · refine Or.inr ?_
      rw [if_neg (by simpa [List.isEmpty_iff] using hne)]
      exact List.mem_filter.mpr
        ⟨(mem_filter_map_mkRow rows _ hnodup r hr).mpr
          (by simp [hptc, hkey]), hhit⟩

/-- Counterexample to C1 as stated: with one agent call and one pass-through
call whose explicit parent reference is the literal internal sentinel string,
the pass-through call is reattributed by timestamp into the child list of
the agent call while also matching the orphan filter of the timeline, so it
appears in both places. -/
theorem partition_counterexample :
    (∃ ac ∈ (organize_billing_calls [agA, ptcS]).agent_calls,
        mkRow ptcS ∈
          glookup (organize_billing_calls [agA, ptcS]).ptc_by_parent
            ac.call_id)
    ∧ isOrphanRaw (agentIdsOf (organize_billing_calls [agA, ptcS]).agent_calls)
        ptcS = true
    ∧ (organize_billing_calls [agA, ptcS]).agent_calls ≠ [] := by
  refine ⟨?_, by decide, by decide⟩
  exact ⟨mkRow agA, by decide, by decide⟩

/-- Claim C1 amended: provided call ids are unique and no explicit parent
reference equals the internal sentinel string, every pass-through record,
when at least one agent call exists, appears in the child list of some agent call
or in the orphan set but never in both, and in the child list of at most one
agent call. -/
theorem partition_exactly_one (rows : List RawRow)
    (hnodup : (rows.map RawRow.call_id).Nodup)
    (hsent : ∀ r ∈ rows, r.ptc_call_id ≠ some "__unlinked__")
    (hagent : agentRows rows ≠ []) :
    ∀ r ∈ rows, isPtcRow r = true →
      ((∃ ac ∈ (organize_billing_calls rows).agent_calls,
          mkRow r ∈
            glookup (organize_billing_calls rows).ptc_by_parent ac.call_id)
        ∨ isOrphanRaw
            (agentIdsOf (organize_billing_calls rows).agent_calls) r = true)
      ∧ ¬((∃ ac ∈ (organize_billing_calls rows).agent_calls,
            mkRow r ∈
              glookup (organize_billing_calls rows).ptc_by_parent ac.call_id)
          ∧ isOrphanRaw
              (agentIdsOf (organize_billing_calls rows).agent_calls) r = true)
      ∧ ∀ ac1 ∈ (organize_billing_calls rows).agent_calls,
          ∀ ac2 ∈ (organize_billing_calls rows).agent_calls,
            mkRow r ∈
              glookup (organize_billing_calls rows).ptc_by_parent ac1.call_id →
            mkRow r ∈
              glookup (organize_billing_calls rows).ptc_by_parent ac2.call_id →
            ac1 = ac2 := by
  intro r hr hptc
  rw [organize_agent_calls]
  have hsent2 : keyFor r = "__unlinked__" → ¬truthyRef r = true := by
    intro hk htr
    rcases href : r.ptc_call_id with _ | s
    · simp [truthyRef, pyStrTruthy, href] at htr
    · simp only [truthyRef, pyStrTruthy, href, decide_eq_true_eq] at htr
      rw [keyFor_some r s href htr] at hk
      exact hsent r hr (by rw [href, hk])
  by_cases hkey : keyFor r = "__unlinked__"
  · -- implicit (or blank) parent reference: reattributed by timestamp
    have horph : isOrphanRaw (agentIdsOf (agentRows rows)) r = false := by
      unfold isOrphanRaw
      have : truthyRef r = false := by
        rcases h : truthyRef r with _ | _
        · rfl
        · exact absurd h (hsent2 hkey)
      simp [this]
    obtain ⟨tgt, htgt⟩ :=
      pyTarget_isSome (agentRows rows) (mkRow r).created_at hagent
    have htmem : tgt ∈ agentRows rows := pyTarget_mem _ _ _ htgt
    have hhit : targetHits (agentRows rows) tgt.call_id (mkRow r) = true := by
      unfold targetHits
      rw [htgt]
      simp
    have hmem : mkRow r ∈
        glookup (organize_billing_calls rows).ptc_by_parent tgt.call_id :=
      (mem_glookup_organize_iff rows hnodup r hr hptc _).mpr
        (Or.inr ⟨hagent, hkey, hhit⟩)
    refine ⟨Or.inl ⟨tgt, htmem, hmem⟩, ?_, ?_⟩
    · rintro ⟨-, horph2⟩
      rw [horph] at horph2
      cases horph2
    · intro ac1 h1 ac2 h2 hm1 hm2
      rcases (mem_glookup_organize_iff rows hnodup r hr hptc _).mp hm1 with
        ⟨hk1, hkey1⟩ | ⟨-, -, hhit1⟩
      · exact absurd (hkey.symm.trans hkey1) (Ne.symm hk1)
      · rcases (mem_glookup_organize_iff rows hnodup r hr hptc _).mp hm2 with
          ⟨hk2, hkey2⟩ | ⟨-, -, hhit2⟩
        · exact absurd (hkey.symm.trans hkey2) (Ne.symm hk2)
        · obtain ⟨t1, ht1, hid1⟩ := targetHits_eq _ _ _ hhit1
          obtain ⟨t2, ht2, hid2⟩ := targetHits_eq _ _ _ hhit2
          have : t1 = t2 := by rw [ht1] at ht2; exact Option.some.inj ht2
          exact agent_mem_inj rows hnodup ac1 h1 ac2 h2
            (by rw [← hid1, ← hid2, this])
  · -- explicit non-sentinel parent reference
    obtain ⟨s, h, hs⟩ : ∃ s, r.ptc_call_id = some s ∧ s ≠ "" := by
      rcases h : r.ptc_call_id with _ | s
      · exact absurd (keyFor_none r h) hkey
      · by_cases hs : s = ""
        · subst hs
          exact absurd (keyFor_blank r h) hkey
        · exact ⟨s, rfl, hs⟩
    have hks : keyFor r = s := keyFor_some r s h hs
    have href : r.ptc_call_id = some (keyFor r) := by rw [hks, h]
    have htr : truthyRef r = true := by
      simp [truthyRef, pyStrTruthy, h, hs]
    have hrefs : refString r = keyFor r := by
      simp [refString, href]
    by_cases hin : keyFor r ∈ agentIdsOf (agentRows rows)
    · -- valid explicit parent: in exactly the child list of that agent
      rcases List.mem_map.mp hin with ⟨ac, hacmem, hacid⟩
      have hmem : mkRow r ∈
          glookup (organize_billing_calls rows).ptc_by_parent ac.call_id :=
        (mem_glookup_organize_iff rows hnodup r hr hptc _).mpr
          (Or.inl ⟨by rw [hacid]; exact hkey, hacid.symm⟩)
      have horph : isOrphanRaw (agentIdsOf (agentRows rows)) r = false := by
        unfold isOrphanRaw
        simp [hrefs, hin]
      refine ⟨Or.inl ⟨ac, hacmem, hmem⟩, ?_, ?_⟩
      · rintro ⟨-, horph2⟩
        rw [horph] at horph2
        cases horph2
      · intro ac1 h1 ac2 h2 hm1 hm2
        rcases (mem_glookup_organize_iff rows hnodup r hr hptc _).mp hm1 with
          ⟨-, hkey1⟩ | ⟨-, hkeys, -⟩
        · rcases (mem_glookup_organize_iff rows hnodup r hr hptc _).mp hm2 with
            ⟨-, hkey2⟩ | ⟨-, hkeys, -⟩
          · exact agent_mem_inj rows hnodup ac1 h1 ac2 h2
              (by rw [← hkey1, ← hkey2])
          · exact absurd hkeys hkey
        · exact absurd hkeys hkey
    · -- dangling explicit parent: orphan, in no child list
      have horph : isOrphanRaw (agentIdsOf (agentRows rows)) r = true := by
        unfold isOrphanRaw
        simp only [hptc, htr, hrefs, Bool.true_and]
        simpa [List.contains_iff_exists_mem_beq, beq_iff_eq] using
          fun h => hin (by simpa using h)
      have hnot : ∀ ac ∈ agentRows rows,
          mkRow r ∉
            glookup (organize_billing_calls rows).ptc_by_parent ac.call_id := by
        intro ac hac hmem
        rcases (mem_glookup_organize_iff rows hnodup r hr hptc _).mp hmem with
          ⟨-, hkey1⟩ | ⟨-, hkeys, -⟩
        · exact hin (by rw [hkey1]; exact List.mem_map_of_mem _ hac)
        · exact hkey hkeys
      refine ⟨Or.inr horph, ?_, ?_⟩
      · rintro ⟨⟨ac, hac, hmem⟩, -⟩
        exact hnot ac hac hmem
      · intro ac1 h1 ac2 h2 hm1 hm2
        exact absurd hm1 (hnot ac1 h1)

/-- Witness for C1 amended on a run mixing a valid explicit child, a
dangling explicit reference and an implicit call, instantiated at the valid
explicit child. -/
theorem partition_exactly_one_witness :
    ((∃ ac ∈ (organize_billing_calls [agA, ptcE, ptcX, ptcI]).agent_calls,
        mkRow ptcE ∈
          glookup (organize_billing_calls [agA, ptcE, ptcX, ptcI]).ptc_by_parent
            ac.call_id)
      ∨ isOrphanRaw
          (agentIdsOf (organize_billing_calls [agA, ptcE, ptcX, ptcI]).agent_calls)
          ptcE = true)
    ∧ ¬((∃ ac ∈ (organize_billing_calls [agA, ptcE, ptcX, ptcI]).agent_calls,
          mkRow ptcE ∈
            glookup
              (organize_billing_calls [agA, ptcE, ptcX, ptcI]).ptc_by_parent
              ac.call_id)
        ∧ isOrphanRaw
            (agentIdsOf
              (organize_billing_calls [agA, ptcE, ptcX, ptcI]).agent_calls)
            ptcE = true)
    ∧ ∀ ac1 ∈ (organize_billing_calls [agA, ptcE, ptcX, ptcI]).agent_calls,
        ∀ ac2 ∈ (organize_billing_calls [agA, ptcE, ptcX, ptcI]).agent_calls,
          mkRow ptcE ∈
            glookup
              (organize_billing_calls [agA, ptcE, ptcX, ptcI]).ptc_by_parent
              ac1.call_id →
          mkRow ptcE ∈
            glookup
              (organize_billing_calls [agA, ptcE, ptcX, ptcI]).ptc_by_parent
              ac2.call_id →
          ac1 = ac2 :=
  partition_exactly_one [agA, ptcE, ptcX, ptcI] (by decide) (by decide)
    (by decide) ptcE (by decide) (by decide)

/-- Counterexample to C4 as stated: a pass-through call whose non-empty
explicit parent reference is the internal sentinel string matches no agent
call id, yet it is attributed into the child list of an agent call, the orphan
count stays zero, no orphan issue is raised and the verdict is Pass. -/
theorem orphan_reporting_counterexample :
    truthyRef ptcS = true
    ∧ refString ptcS ∉
        agentIdsOf (organize_billing_calls [ptcS, agB]).agent_calls
    ∧ mkRow ptcS ∈
        glookup (organize_billing_calls [ptcS, agB]).ptc_by_parent "a2"
    ∧ orphanCount (agentIdsOf (organize_billing_calls [ptcS, agB]).agent_calls)
        (organize_billing_calls [ptcS, agB]).ptc_by_parent = 0
    ∧ print_checks_issues (some true) 1 (some "u") true true
        (organize_billing_calls [ptcS, agB]).agent_calls
        (organize_billing_calls [ptcS, agB]).ptc_by_parent
        (organize_billing_calls [ptcS, agB]).ptc_count 1 1
        (organize_billing_calls [ptcS, agB]).warnings = []
    ∧ print_checks_verdict (some true) 1 (some "u") true true
        (organize_billing_calls [ptcS, agB]).agent_calls
        (organize_billing_calls [ptcS, agB]).ptc_by_parent
        (organize_billing_calls [ptcS, agB]).ptc_count 1 1
        (organize_billing_calls [ptcS, agB]).warnings = Verdict.pass := by
  exact ⟨by decide, by decide, by decide, by decide, by decide, by decide⟩

/-- Claim C4 amended: provided no explicit parent reference equals the
internal sentinel string, every pass-through call whose non-empty explicit
reference matches no agent call id lands in the orphan set, never in any
child list of any agent call, the orphan count is positive, the orphan issue is
appended, and the verdict is Fail. -/
theorem orphan_reporting (rows : List RawRow)
    (hnodup : (rows.map RawRow.call_id).Nodup)
    (hsent : ∀ r2 ∈ rows, r2.ptc_call_id ≠ some "__unlinked__")
    (r : RawRow) (hr : r ∈ rows) (hptc : isPtcRow r = true) (s : String)
    (href : r.ptc_call_id = some s) (hs : s ≠ "")
    (hno : s ∉ agentIdsOf (agentRows rows)) :
    isOrphanRaw (agentIdsOf (organize_billing_calls rows).agent_calls) r = true
    ∧ (∀ ac ∈ (organize_billing_calls rows).agent_calls,
        mkRow r ∉
          glookup (organize_billing_calls rows).ptc_by_parent ac.call_id)
    ∧ 0 < orphanCount
        (agentIdsOf (organize_billing_calls rows).agent_calls)
        (organize_billing_calls rows).ptc_by_parent
    ∧ ∀ pe mc uid te kf tb ma ws,
        (toString
            (orphanCount (agentIdsOf (organize_billing_calls rows).agent_calls)
              (organize_billing_calls rows).ptc_by_parent) ++
            " orphan PTC call(s)") ∈
          print_checks_issues pe mc uid te kf
            (organize_billing_calls rows).agent_calls
            (organize_billing_calls rows).ptc_by_parent
            (organize_billing_calls rows).ptc_count tb ma ws
        ∧ print_checks_verdict pe mc uid te kf
            (organize_billing_calls rows).agent_calls
            (organize_billing_calls rows).ptc_by_parent
            (organize_billing_calls rows).ptc_count tb ma ws =
          Verdict.fail
            (print_checks_issues pe mc uid te kf
              (organize_billing_calls rows).agent_calls
              (organize_billing_calls rows).ptc_by_parent
              (organize_billing_calls rows).ptc_count tb ma ws) := by
  rw [organize_agent_calls]
  have hks : keyFor r = s := keyFor_some r s href hs
  have hsK : s ≠ "__unlinked__" := by
    intro hcon
    exact hsent r hr (by rw [href, hcon])
  have htr : truthyRef r = true := by
    simp [truthyRef, pyStrTruthy, href, hs]
  have hrefs : refString r = s := by simp [refString, href]
  have hcont : (agentIdsOf (agentRows rows)).contains s = false := by
    simpa [List.contains_iff_exists_mem_beq, beq_iff_eq] using
      fun h => hno (by simpa using h)
  have horph : isOrphanRaw (agentIdsOf (agentRows rows)) r = true := by
    unfold isOrphanRaw
    rw [hptc, htr, hrefs, hcont]
    rfl
  have hnot : ∀ ac ∈ agentRows rows,
      mkRow r ∉
        glookup (organize_billing_calls rows).ptc_by_parent ac.call_id := by
    intro ac hac hmem
    rcases (mem_glookup_organize_iff rows hnodup r hr hptc _).mp hmem with
      ⟨-, hkey1⟩ | ⟨-, hkeys, -⟩
    · rw [hks] at hkey1
      exact hno (by rw [hkey1]; exact List.mem_map_of_mem _ hac)
    · rw [hks] at hkeys
      exact hsK hkeys
  have hmemS : mkRow r ∈
      glookup (organize_billing_calls rows).ptc_by_parent s :=
    (mem_glookup_organize_iff rows hnodup r hr hptc s).mpr
      (Or.inl ⟨hsK, hks⟩)
  have hpos : 0 < orphanCount (agentIdsOf (agentRows rows))
      (organize_billing_calls rows).ptc_by_parent :=
    orphanCount_pos _ _ s hcont (List.ne_nil_of_mem hmemS)
  refine ⟨horph, hnot, hpos, ?_⟩
  intro pe mc uid te kf tb ma ws
  have hpc : ((organize_billing_calls rows).ptc_count == 0) = false := by
    rw [organize_ptc_count]
    have : r ∈ rows.filter (fun r2 => isPtcRow r2) :=
      List.mem_filter.mpr ⟨hr, hptc⟩
    have hlen : 0 < (rows.filter (fun r2 => isPtcRow r2)).length :=
      List.length_pos.mpr (List.ne_nil_of_mem this)
    rw [beq_eq_false_iff_ne]
    omega
  have hoc : (orphanCount (agentIdsOf (agentRows rows))
      (organize_billing_calls rows).ptc_by_parent == 0) = false := by
    rw [beq_eq_false_iff_ne]
    omega
  have hmem : (toString
      (orphanCount (agentIdsOf (agentRows rows))
        (organize_billing_calls rows).ptc_by_parent) ++
      " orphan PTC call(s)") ∈
      print_checks_issues pe mc uid te kf (agentRows rows)
        (organize_billing_calls rows).ptc_by_parent
        (organize_billing_calls rows).ptc_count tb ma ws := by
    rw [print_checks_issues_decompose]
    have hiss : (toString
        (orphanCount (agentIdsOf (agentRows rows))
          (organize_billing_calls rows).ptc_by_parent) ++
        " orphan PTC call(s)") ∈
        linkageIssues (agentRows rows)
          (organize_billing_calls rows).ptc_by_parent
          (organize_billing_calls rows).ptc_count := by
      unfold linkageIssues
      rw [if_neg (by simp [hpc]), if_neg (by simp [hoc])]
      simp
    simp only [List.mem_append]
    tauto
  refine ⟨hmem, ?_⟩
  unfold print_checks_verdict
  rw [if_neg]
  intro hempty
  rw [List.isEmpty_iff] at hempty
  rw [hempty] at hmem
  cases hmem

/-- Witness for C4 amended: scenario B, a dangling reference X with one
agent call yields an orphan, a positive orphan count and the orphan issue. -/
theorem orphan_reporting_witness :
    isOrphanRaw (agentIdsOf (organize_billing_calls [agA, ptcX]).agent_calls)
        ptcX = true
    ∧ 0 < orphanCount
        (agentIdsOf (organize_billing_calls [agA, ptcX]).agent_calls)
        (organize_billing_calls [agA, ptcX]).ptc_by_parent
    ∧ (toString
          (orphanCount (agentIdsOf (organize_billing_calls [agA, ptcX]).agent_calls)
            (organize_billing_calls [agA, ptcX]).ptc_by_parent) ++
          " orphan PTC call(s)") ∈
        print_checks_issues (some true) 1 (some "u") true true
          (organize_billing_calls [agA, ptcX]).agent_calls
          (organize_billing_calls [agA, ptcX]).ptc_by_parent
          (organize_billing_calls [agA, ptcX]).ptc_count 1 1
          (organize_billing_calls [agA, ptcX]).warnings := by
  have h := orphan_reporting [agA, ptcX] (by decide) (by decide) ptcX
    (by decide) (by decide) "X" (by decide) (by decide) (by decide)
  exact ⟨h.1, h.2.2.1,
    (h.2.2.2 (some true) 1 (some "u") true true 1 1
      (organize_billing_calls [agA, ptcX]).warnings).1⟩

theorem keyFor_sentinel_ref (r : RawRow)
    (hs : r.ptc_call_id ≠ some "__unlinked__")
    (hk : keyFor r = "__unlinked__") :
    r.ptc_call_id = none ∨ r.ptc_call_id = some "" := by
  rcases h : r.ptc_call_id with _ | s
  · exact Or.inl rfl
  · by_cases hblank : s = ""
    · subst hblank
      exact Or.inr rfl
    · rw [keyFor_some r s h hblank] at hk
      exact absurd (by rw [h, hk]) hs

theorem keyFor_ne_sentinel_ref (r : RawRow) (hk : keyFor r ≠ "__unlinked__") :
    ∃ s, r.ptc_call_id = some s ∧ s ≠ "" ∧ keyFor r = s := by
  rcases h : r.ptc_call_id with _ | s
  · exact absurd (keyFor_none r h) hk
  · by_cases hblank : s = ""
    · subst hblank
      exact absurd (keyFor_blank r h) hk
    · exact ⟨s, rfl, hblank, keyFor_some r s h hblank⟩

theorem mkRow_ptc_call_id (r : RawRow) :
    (mkRow r).ptc_call_id = r.ptc_call_id := rfl

/-- Counterexample to C8 as stated: on an ascending input with one agent
call, one implicit pass-through call at time 5 and one explicit child at
time 10, the child list of the agent comes out in order 10, 5 because implicit
children are appended after explicit ones. -/
theorem children_order_counterexample :
    List.Pairwise (fun x y : RawRow => x.created_at ≤ y.created_at)
        [agA, ptcI, ptcE]
    ∧ (glookup (organize_billing_calls [agA, ptcI, ptcE]).ptc_by_parent
          "a1").map BillingRow.created_at = [10, 5]
    ∧ ¬ List.Pairwise (fun x y : Int => x ≤ y)
        ((glookup (organize_billing_calls [agA, ptcI, ptcE]).ptc_by_parent
          "a1").map BillingRow.created_at) := by
  exact ⟨by decide, by decide, by decide⟩

/-- Claim C8 amended: provided no explicit parent reference equals the
internal sentinel string, the child list of each agent call is the explicitly
referenced children followed by the implicitly attributed ones; each segment
preserves the original ascending input order (stable, sorted by creation
time), but the concatenation of the two segments need not be ascending. -/
theorem children_order (rows : List RawRow)
    (hsorted : rows.Pairwise (fun x y => x.created_at ≤ y.created_at))
    (hsent : ∀ r ∈ rows, r.ptc_call_id ≠ some "__unlinked__") :
    ∀ k, k ≠ "__unlinked__" →
      ∃ exp imp,
        glookup (organize_billing_calls rows).ptc_by_parent k = exp ++ imp
        ∧ exp.Sublist (rows.map mkRow)
        ∧ imp.Sublist (rows.map mkRow)
        ∧ exp.Pairwise (fun x y => x.created_at ≤ y.created_at)
        ∧ imp.Pairwise (fun x y => x.created_at ≤ y.created_at)
        ∧ (∀ p ∈ exp, pyStrTruthy p.ptc_call_id = true)
        ∧ (∀ p ∈ imp, pyStrTruthy p.ptc_call_id = false) := by
  intro k hk
  have hmap : (rows.map mkRow).Pairwise
      (fun x y => x.created_at ≤ y.created_at) := by
    rw [List.pairwise_map]
    exact hsorted
  refine ⟨(rows.filter (fun r => isPtcRow r && keyFor r == k)).map mkRow,
    if (agentRows rows).isEmpty then []
    else (unlinkedRows rows).filter (targetHits (agentRows rows) k),
    ?_, ?_, ?_, ?_, ?_, ?_, ?_⟩
  · rw [glookup_organize, if_neg hk]
  · exact (List.filter_sublist rows).map mkRow
  · split
    · exact List.nil_sublist _
    · exact ((List.filter_sublist _).trans
        ((List.filter_sublist rows).map mkRow))
  · exact hmap.sublist ((List.filter_sublist rows).map mkRow)
  · split
    · exact List.Pairwise.nil
    · exact hmap.sublist ((List.filter_sublist _).trans
        ((List.filter_sublist rows).map mkRow))
  · intro p hp
    rcases List.mem_map.mp hp with ⟨r, hrf, hpr⟩
    rcases List.mem_filter.mp hrf with ⟨hrmem, hcond⟩
    simp only [Bool.and_eq_true, beq_iff_eq] at hcond
    obtain ⟨s, href, hs, -⟩ := keyFor_ne_sentinel_ref r
      (by rw [hcond.2]; exact hk)
    rw [← hpr, mkRow_ptc_call_id, href]
    simp [pyStrTruthy, hs]
  · intro p hp
    rw [apply_ite (fun l => p ∈ l)] at hp
    by_cases hemp : (agentRows rows).isEmpty
    · rw [if_pos hemp] at hp
      cases hp
    · rw [if_neg hemp] at hp
      rcases List.mem_filter.mp hp with ⟨hmem, -⟩
      rcases List.mem_map.mp hmem with ⟨r, hrf, hpr⟩
      rcases List.mem_filter.mp hrf with ⟨hrmem, hcond⟩
      simp only [Bool.and_eq_true, beq_iff_eq] at hcond
      rcases keyFor_sentinel_ref r (hsent r hrmem) hcond.2 with href | href <;>
        rw [← hpr, mkRow_ptc_call_id, href] <;> simp [pyStrTruthy]

/-- Witness for C8 amended at the mixed child list of agent a1. -/
theorem children_order_witness :
    ∃ exp imp,
      glookup (organize_billing_calls [agA, ptcI, ptcE]).ptc_by_parent "a1" =
          exp ++ imp
      ∧ exp.Sublist ([agA, ptcI, ptcE].map mkRow)
      ∧ imp.Sublist ([agA, ptcI, ptcE].map mkRow)
      ∧ exp.Pairwise (fun x y => x.created_at ≤ y.created_at)
      ∧ imp.Pairwise (fun x y => x.created_at ≤ y.created_at)
      ∧ (∀ p ∈ exp, pyStrTruthy p.ptc_call_id = true)
      ∧ (∀ p ∈ imp, pyStrTruthy p.ptc_call_id = false) :=
  children_order [agA, ptcI, ptcE] (by decide) (by decide) "a1" (by decide)

/-- Evaluation for C3 at the failing input: with no agent call and one
implicit pass-through call, organize pops the sentinel group before the
empty-agents guard, leaving an empty attribution map; the linkage check
contributes no issue, the whole issue list is empty and the verdict is
Pass, so the unattributed call is silently discarded rather than reported. -/
theorem unattributed_dropped_eval :
    (organize_billing_calls [ptcI]).ptc_count = 1
    ∧ (organize_billing_calls [ptcI]).agent_calls = []
    ∧ (organize_billing_calls [ptcI]).ptc_by_parent = []
    ∧ linkageIssues (organize_billing_calls [ptcI]).agent_calls
        (organize_billing_calls [ptcI]).ptc_by_parent
        (organize_billing_calls [ptcI]).ptc_count = []
    ∧ print_checks_issues (some true) 1 (some "u") true true
        (organize_billing_calls [ptcI]).agent_calls
        (organize_billing_calls [ptcI]).ptc_by_parent
        (organize_billing_calls [ptcI]).ptc_count 1 1
        (organize_billing_calls [ptcI]).warnings = []
    ∧ print_checks_verdict (some true) 1 (some "u") true true
        (organize_billing_calls [ptcI]).agent_calls
        (organize_billing_calls [ptcI]).ptc_by_parent
        (organize_billing_calls [ptcI]).ptc_count 1 1
        (organize_billing_calls [ptcI]).warnings = Verdict.pass := by
  exact ⟨by decide, by decide, by decide, by decide, by decide, by decide⟩

/-! Simulation machinery for C10: organize and the checks never read the
original_price column, shown by relating a run on price-rewritten rows to
the original run modulo stripping the price field. -/

theorem stripOP_call_id (b : BillingRow) : (stripOP b).call_id = b.call_id :=
  rfl

theorem stripOP_created_at (b : BillingRow) :
    (stripOP b).created_at = b.created_at := rfl

theorem stripGroup_gadd (m : Group) (k : String) (r : BillingRow) :
    stripGroup (gadd m k r) = gadd (stripGroup m) k (stripOP r) := by
  induction m with
  | nil => simp [gadd, stripGroup]
  | cons kv rest ih =>
    obtain ⟨k1, v⟩ := kv
    by_cases h : k1 = k
    · subst h; simp [gadd, stripGroup]
    · simp [gadd, stripGroup, beq_iff_eq, h] at *
      exact ih

theorem stripGroup_gremove (m : Group) (k : String) :
    stripGroup (gremove m k) = gremove (stripGroup m) k := by
  induction m with
  | nil => simp [gremove, stripGroup]
  | cons kv rest ih =>
    obtain ⟨k1, v⟩ := kv
    by_cases h : k1 = k
    · subst h; simpa [gremove, stripGroup] using ih
    · simp [gremove, stripGroup, h] at *
      exact ih

theorem glookup_stripGroup (m : Group) (k : String) :
    glookup (stripGroup m) k = (glookup m k).map stripOP := by
  induction m with
  | nil => simp [glookup, stripGroup]
  | cons kv rest ih =>
    obtain ⟨k1, v⟩ := kv
    by_cases h : k1 = k
    · subst h; simp [glookup, stripGroup]
    · simp [glookup, stripGroup, beq_iff_eq, h] at *
      exact ih

theorem isPtcRow_setOP (g : RawRow → Option Int) (r : RawRow) :
    isPtcRow (setOriginalPrice g r) = isPtcRow r := rfl

theorem keyFor_setOP (g : RawRow → Option Int) (r : RawRow) :
    keyFor (setOriginalPrice g r) = keyFor r := rfl

theorem unbilledCond_setOP (g : RawRow → Option Int) (r : RawRow) :
    unbilledCond (setOriginalPrice g r) = unbilledCond r := rfl

theorem mkWarning_setOP (g : RawRow → Option Int) (r : RawRow) :
    mkWarning (setOriginalPrice g r) = mkWarning r := rfl

theorem stripOP_mkRow_setOP (g : RawRow → Option Int) (r : RawRow) :
    stripOP (mkRow (setOriginalPrice g r)) = stripOP (mkRow r) := rfl

theorem scanParent_strip (acs2 acs : List BillingRow)
    (h : acs2.map stripOP = acs.map stripOP) (t : Int) :
    (scanParent acs2 t).map stripOP = (scanParent acs t).map stripOP := by
  induction acs2 generalizing acs with
  | nil =>
    rcases acs with _ | ⟨a, rest⟩
    · rfl
    · cases h
  | cons a2 rest2 ih =>
    rcases acs with _ | ⟨a, rest⟩
    · cases h
    · simp only [List.map_cons, List.cons.injEq] at h
      have hcr : a2.created_at = a.created_at := by
        rw [← stripOP_created_at a2, ← stripOP_created_at a, h.1]
      have hrec := ih rest h.2
      simp only [scanParent, hcr]
      by_cases hle : a.created_at ≤ t
      · rw [if_pos hle, if_pos hle]
        rcases h2 : scanParent rest2 t with _ | p2 <;>
          rcases h1 : scanParent rest t with _ | p1
        · dsimp only
          simp [h.1]
        · rw [h2, h1] at hrec
          simp at hrec
        · rw [h2, h1] at hrec
          simp at hrec
        · rw [h2, h1] at hrec
          dsimp only
          simpa using hrec
      · rw [if_neg hle, if_neg hle]

theorem pyTarget_strip (acs2 acs : List BillingRow)
    (h : acs2.map stripOP = acs.map stripOP) (t : Int) :
    (pyTarget acs2 t).map stripOP = (pyTarget acs t).map stripOP := by
  unfold pyTarget
  have hscan := scanParent_strip acs2 acs h t
  rcases h2 : scanParent acs2 t with _ | p2 <;>
    rcases h1 : scanParent acs t with _ | p1
  · rcases acs2 with _ | ⟨a2, r2⟩ <;> rcases acs with _ | ⟨a1, r1⟩
    · rfl
    · cases h
    · cases h
    · simp only [List.map_cons, List.cons.injEq] at h
      simpa using h.1
  · rw [h2, h1] at hscan; cases hscan
  · rw [h2, h1] at hscan; cases hscan
  · rw [h2, h1] at hscan
    exact hscan

theorem targetHits_strip (acs2 acs : List BillingRow)
    (h : acs2.map stripOP = acs.map stripOP) (k : String)
    (p2 p : BillingRow) (hp : stripOP p2 = stripOP p) :
    targetHits acs2 k p2 = targetHits acs k p := by
  unfold targetHits
  have hcr : p2.created_at = p.created_at := by
    rw [← stripOP_created_at p2, ← stripOP_created_at p, hp]
  have := pyTarget_strip acs2 acs h p.created_at
  rw [hcr]
  rcases h2 : pyTarget acs2 p.created_at with _ | t2 <;>
    rcases h1 : pyTarget acs p.created_at with _ | t1
  · rfl
  · rw [h2, h1] at this; cases this
  · rw [h2, h1] at this; cases this
  · rw [h2, h1] at this
    have h3 : stripOP t2 = stripOP t1 := by simpa using this
    have hid : t2.call_id = t1.call_id := by
      rw [← stripOP_call_id t2, ← stripOP_call_id t1, h3]
    dsimp only
    rw [hid]

theorem isEmpty_congr_of_map_strip (l1 l2 : List BillingRow)
    (h : l1.map stripOP = l2.map stripOP) : l1.isEmpty = l2.isEmpty := by
  cases l1 <;> cases l2 <;> simp_all

theorem foldl_gadd_strip (acs2 acs : List BillingRow)
    (hac : acs2.map stripOP = acs.map stripOP) :
    ∀ (unl2 unl : List BillingRow), unl2.map stripOP = unl.map stripOP →
      ∀ (m2 m : Group), stripGroup m2 = stripGroup m →
        stripGroup
          (unl2.foldl
            (fun acc p =>
              match pyTarget acs2 p.created_at with
              | some target => gadd acc target.call_id p
              | none => acc) m2) =
        stripGroup
          (unl.foldl
            (fun acc p =>
              match pyTarget acs p.created_at with
              | some target => gadd acc target.call_id p
              | none => acc) m) := by
  intro unl2
  induction unl2 with
  | nil =>
    intro unl hunl m2 m hm
    rcases unl with _ | ⟨p, rest⟩
    · simpa using hm
    · cases hunl
  | cons p2 rest2 ih =>
    intro unl hunl m2 m hm
    rcases unl with _ | ⟨p, rest⟩
    · cases hunl
    · simp only [List.map_cons, List.cons.injEq] at hunl
      have hcr : p2.created_at = p.created_at := by
        rw [← stripOP_created_at p2, ← stripOP_created_at p, hunl.1]
      have htgt := pyTarget_strip acs2 acs hac p.created_at
      simp only [List.foldl_cons, hcr]
      apply ih rest hunl.2
      rcases h2 : pyTarget acs2 p.created_at with _ | t2 <;>
        rcases h1 : pyTarget acs p.created_at with _ | t1
      · exact hm
      · rw [h2, h1] at htgt; cases htgt
      · rw [h2, h1] at htgt; cases htgt
      · rw [h2, h1] at htgt
        have h3 : stripOP t2 = stripOP t1 := by simpa using htgt
        have hid : t2.call_id = t1.call_id := by
          rw [← stripOP_call_id t2, ← stripOP_call_id t1, h3]
        rw [stripGroup_gadd, stripGroup_gadd, hm, hid, hunl.1]

theorem assign_strip (acs2 acs : List BillingRow) (m2 m : Group)
    (hac : acs2.map stripOP = acs.map stripOP)
    (hm : stripGroup m2 = stripGroup m) :
    stripGroup (assign_unlinked_ptc acs2 m2) =
      stripGroup (assign_unlinked_ptc acs m) := by
  unfold assign_unlinked_ptc
  have hunl : (glookup m2 "__unlinked__").map stripOP =
      (glookup m "__unlinked__").map stripOP := by
    rw [← glookup_stripGroup, ← glookup_stripGroup, hm]
  have hemp : (glookup m2 "__unlinked__").isEmpty =
      (glookup m "__unlinked__").isEmpty :=
    isEmpty_congr_of_map_strip _ _ hunl
  have hacs : acs2.isEmpty = acs.isEmpty :=
    isEmpty_congr_of_map_strip _ _ hac
  dsimp only
  rw [hemp, hacs]
  split
  · rw [stripGroup_gremove, stripGroup_gremove, hm]
  · exact foldl_gadd_strip acs2 acs hac _ _ hunl _ _
      (by rw [stripGroup_gremove, stripGroup_gremove, hm])

theorem foldl_stripGroup (rows : List RawRow) (g : RawRow → Option Int)
    (st2 st : OrganizeOut)
    (hm : stripGroup st2.ptc_by_parent = stripGroup st.ptc_by_parent) :
    stripGroup
      ((rows.map (setOriginalPrice g)).foldl organizeStep st2).ptc_by_parent =
      stripGroup (rows.foldl organizeStep st).ptc_by_parent := by
  induction rows generalizing st2 st with
  | nil => simpa using hm
  | cons r rest ih =>
    simp only [List.map_cons, List.foldl_cons]
    apply ih
    by_cases hw : unbilledCond r <;> by_cases hp : isPtcRow r <;>
      simp [organizeStep, unbilledCond_setOP, isPtcRow_setOP, keyFor_setOP,
        hw, hp, stripGroup_gadd, stripOP_mkRow_setOP, hm]

theorem filter_map_comm {α β : Type} (l : List α) (f : α → β)
    (p : β → Bool) :
    (l.map f).filter p = (l.filter (fun a => p (f a))).map f := by
  induction l with
  | nil => rfl
  | cons a rest ih =>
    by_cases h : p (f a) <;> simp [h, ih]

theorem agentRows_setOP_strip (rows : List RawRow) (g : RawRow → Option Int) :
    (agentRows (rows.map (setOriginalPrice g))).map stripOP =
      (agentRows rows).map stripOP := by
  unfold agentRows
  rw [filter_map_comm, List.map_map, List.map_map]
  have hfilter : rows.filter (fun a => !isPtcRow (setOriginalPrice g a)) =
      rows.filter (fun r => !isPtcRow r) :=
    List.filter_congr (fun a _ => rfl)
  rw [hfilter]
  simp only [List.map_map]
  exact List.map_congr_left (fun a _ => rfl)

theorem organize_stripGroup (rows : List RawRow) (g : RawRow → Option Int) :
    stripGroup
      (organize_billing_calls (rows.map (setOriginalPrice g))).ptc_by_parent =
      stripGroup (organize_billing_calls rows).ptc_by_parent := by
  unfold organize_billing_calls
  dsimp only
  apply assign_strip
  · rw [foldl_agent_calls, foldl_agent_calls]
    simpa [agentRows] using agentRows_setOP_strip rows g
  · exact foldl_stripGroup rows g _ _ rfl

theorem orphanCount_stripGroup (ids : List String) (m : Group) :
    orphanCount ids (stripGroup m) = orphanCount ids m := by
  induction m with
  | nil => rfl
  | cons kv rest ih =>
    obtain ⟨k1, v⟩ := kv
    rcases hc : ids.contains k1 with _ | _
    · have hrec := ih
      simp only [orphanCount, stripGroup, List.map_cons, List.filter_cons, hc,
        Bool.not_false, if_true, List.sum_cons, List.length_map] at hrec ⊢
      omega
    · have hmem : k1 ∈ ids := by
        simpa [List.contains_iff_exists_mem_beq, beq_iff_eq] using hc
      simpa [orphanCount, stripGroup, List.filter_cons, hmem] using ih

theorem agentIdsOf_strip_congr (l2 l : List BillingRow)
    (h : l2.map stripOP = l.map stripOP) : agentIdsOf l2 = agentIdsOf l := by
  unfold agentIdsOf
  have h2 : ∀ l1 : List BillingRow,
      (l1.map stripOP).map BillingRow.call_id = l1.map BillingRow.call_id := by
    intro l1
    rw [List.map_map]
    exact List.map_congr_left (fun a _ => rfl)
  rw [← h2 l2, h, h2 l]

theorem organize_warnings_setOP (rows : List RawRow)
    (g : RawRow → Option Int) :
    (organize_billing_calls (rows.map (setOriginalPrice g))).warnings =
      (organize_billing_calls rows).warnings := by
  rw [organize_warnings, organize_warnings, filter_map_comm]
  rw [List.map_map]
  have hfilter : rows.filter (fun a => unbilledCond (setOriginalPrice g a)) =
      rows.filter unbilledCond :=
    List.filter_congr (fun a _ => rfl)
  rw [hfilter]
  exact List.map_congr_left (fun a _ => rfl)

theorem organize_ptc_count_setOP (rows : List RawRow)
    (g : RawRow → Option Int) :
    (organize_billing_calls (rows.map (setOriginalPrice g))).ptc_count =
      (organize_billing_calls rows).ptc_count := by
  rw [organize_ptc_count, organize_ptc_count, filter_map_comm,
    List.length_map]
  have hfilter : rows.filter (fun a => isPtcRow (setOriginalPrice g a)) =
      rows.filter (fun r => isPtcRow r) :=
    List.filter_congr (fun a _ => rfl)
  rw [hfilter]

theorem print_checks_issues_congr (pe : Option Bool) (mc : Nat)
    (uid : Option String) (te kf : Bool) (acs2 acs : List BillingRow)
    (m2 m : Group) (pc2 pc tb ma : Nat) (ws2 ws : List Warning)
    (hoc : orphanCount (agentIdsOf acs2) m2 = orphanCount (agentIdsOf acs) m)
    (hpc : pc2 = pc) (hws : ws2 = ws) :
    print_checks_issues pe mc uid te kf acs2 m2 pc2 tb ma ws2 =
      print_checks_issues pe mc uid te kf acs m pc tb ma ws := by
  rw [print_checks_issues_decompose, print_checks_issues_decompose, hws, hpc]
  have hlink : linkageIssues acs2 m2 pc = linkageIssues acs m pc := by
    unfold linkageIssues
    rw [hoc]
  rw [hlink]

/-- Claim C10: the engine never enforces credits at most original price.
Rewriting the original_price column arbitrarily changes neither the anomaly
warning list nor the verification issue list, so no anomaly, warning or
issue is ever generated on account of a record with charged credits above
its original price; moreover such a record (with a non-negative original
price) can never satisfy the unbilled-success condition. -/
theorem no_price_validation (rows : List RawRow) (g : RawRow → Option Int) :
    (organize_billing_calls (rows.map (setOriginalPrice g))).warnings =
      (organize_billing_calls rows).warnings
    ∧ (∀ pe mc uid te kf tb ma,
        print_checks_issues pe mc uid te kf
          (organize_billing_calls (rows.map (setOriginalPrice g))).agent_calls
          (organize_billing_calls (rows.map (setOriginalPrice g))).ptc_by_parent
          (organize_billing_calls (rows.map (setOriginalPrice g))).ptc_count
          tb ma
          (organize_billing_calls (rows.map (setOriginalPrice g))).warnings =
        print_checks_issues pe mc uid te kf
          (organize_billing_calls rows).agent_calls
          (organize_billing_calls rows).ptc_by_parent
          (organize_billing_calls rows).ptc_count tb ma
          (organize_billing_calls rows).warnings)
    ∧ (∀ r : RawRow, 0 ≤ pyOrZero r.original_price →
        pyOrZero r.original_price < pyOrZero r.credits_charged →
        unbilledCond r = false) := by
  refine ⟨organize_warnings_setOP rows g, ?_, ?_⟩
  · intro pe mc uid te kf tb ma
    have hstrip : (organize_billing_calls
        (rows.map (setOriginalPrice g))).agent_calls.map stripOP =
        (organize_billing_calls rows).agent_calls.map stripOP := by
      rw [organize_agent_calls, organize_agent_calls]
      exact agentRows_setOP_strip rows g
    have hids := agentIdsOf_strip_congr _ _ hstrip
    apply print_checks_issues_congr
    · rw [hids]
      rw [← orphanCount_stripGroup
        (agentIdsOf (organize_billing_calls rows).agent_calls)
        (organize_billing_calls (rows.map (setOriginalPrice g))).ptc_by_parent]
      rw [organize_stripGroup rows g]
      rw [orphanCount_stripGroup]
    · exact organize_ptc_count_setOP rows g
    · exact organize_warnings_setOP rows g
  · intro r h1 h2
    have hb : (pyOrZero r.credits_charged == 0) = false := by
      rw [beq_eq_false_iff_ne]
      omega
    simp [unbilledCond, hb]

/-- Witness for C10 at a concrete run whose only call is charged 5 credits
against an original price of 3: the warnings agree with the price zeroed
out, and the record never counts as an unbilled success. -/
theorem no_price_validation_witness :
    (organize_billing_calls
        ([agV].map (setOriginalPrice (fun _ => none)))).warnings =
      (organize_billing_calls [agV]).warnings
    ∧ unbilledCond agV = false :=
  ⟨(no_price_validation [agV] (fun _ => none)).1,
    (no_price_validation [agV] (fun _ => none)).2.2 agV (by decide) (by decide)⟩

end PtcEngine
